import Mathlib

/-!
Verification of the slr-kit term-classification core (fawoc) against its
specification.  The Term Store operations are embedded from `src/words.py`
(class `WordList` and enum `Label`); the session actions `classify`, `undo`
and `do_postpone` are embedded from `src/fawoc.py`.  `fawoc.py` imports the
store as `TermList` from `terms.py` (a renamed copy of `words.py` that is not
among the repository files staged here); the claims pair the fawoc functions
with the `words.py` methods, so the embedding identifies
`TermList.classify_term` with `WordList.mark_word`,
`TermList.get_last_classified_term` with `WordList.get_last_classified_word`,
`TermList.get_last_classified_order` with `WordList.get_last_classified_order`
and `TermList.return_related_items` with `WordList.return_related_items`.
Python exceptions are modelled with `Except String`; Python `int` is `Int`.
-/

/-- The `Label` enumeration of `words.py`: a classification state carrying a
display name and a one-character input key. -/
inductive Label where
  | NONE
  | KEYWORD
  | NOISE
  | RELEVANT
  | NOT_RELEVANT
  | POSTPONED
  deriving DecidableEq

/-- The `name` attribute of each `Label` member (first tuple component in the
source). -/
def Label.name : Label → String
  | .NONE => ""
  | .KEYWORD => "keyword"
  | .NOISE => "noise"
  | .RELEVANT => "relevant"
  | .NOT_RELEVANT => "not-relevant"
  | .POSTPONED => "postponed"

/-- The `key` attribute of each `Label` member (second tuple component in the
source). -/
def Label.key : Label → String
  | .NONE => ""
  | .KEYWORD => "k"
  | .NOISE => "n"
  | .RELEVANT => "r"
  | .NOT_RELEVANT => "x"
  | .POSTPONED => "p"

/-- Iteration order of `for label in Label` in the source: declaration order
of the enum members. -/
def Label.members : List Label :=
  [.NONE, .KEYWORD, .NOISE, .RELEVANT, .NOT_RELEVANT, .POSTPONED]

/-- `Label.get_from_key`: the first member whose key equals `k`, else a
`ValueError`. -/
def Label.get_from_key (k : String) : Except String Label :=
  match Label.members.find? (fun l => l.key == k) with
  | some l => .ok l
  | none => .error ("is not a valid key")

/-- `Label.get_from_name`: the first member whose name equals `n`, else a
`ValueError`. -/
def Label.get_from_name (n : String) : Except String Label :=
  match Label.members.find? (fun l => l.name == n) with
  | some l => .ok l
  | none => .error ("is not a valid label name")

/-- The `Word` dataclass of `words.py`.  `count` is kept as the raw string
read by `from_csv` (the source stores `row['count']` without conversion). -/
structure Word where
  index : Int
  word : String
  count : String
  group : Label
  order : Int
  related : String
  deriving DecidableEq

/-- `WordList.mark_word`: walk the item list, update the first term whose
string equals `word` (setting `group`, `order`, `related`) and stop; a term
list with no such string is returned unchanged.  The Python default
`related=''` is passed explicitly by the callers below. -/
def mark_word : List Word → String → Label → Int → String → List Word
  | [], _, _, _, _ => []
  | w :: ws, word, marker, order, related =>
    if w.word == word then
      { w with group := marker, order := order, related := related } :: ws
    else
      w :: mark_word ws word marker order related

/-- The running maximum of `max(w.order for w in items)` over the tail of the
item list, seeded with the head's order. -/
def maxOrderAux : Int → List Word → Int
  | m, [] => m
  | m, w :: ws => maxOrderAux (max m w.order) ws

/-- `WordList.get_last_classified_order`: `max(w.order for w in self.items)`,
clamped to `-1` when negative.  Python's `max` raises `ValueError` on an
empty sequence, modelled as `Except.error`. -/
def get_last_classified_order (items : List Word) : Except String Int :=
  match items with
  | [] => .error ("max() arg is an empty sequence")
  | w :: ws =>
    let order := maxOrderAux w.order ws
    .ok (if order < 0 then -1 else order)

/-- `WordList.get_last_classified_word`: the first term whose order equals
`get_last_classified_order()`, or `none` when no term matches (the source's
`for`/`else` branch). -/
def get_last_classified_word (items : List Word) : Except String (Option Word) := do
  let last ← get_last_classified_order items
  return items.find? (fun w => w.order == last)

/-- Accumulating scan behind `pySplit`: collect the current token (reversed)
and emit it when whitespace or the end of the string is reached. -/
def pySplitAux : List Char → List Char → List String
  | [], cur => if cur.isEmpty then [] else [String.mk cur.reverse]
  | c :: cs, cur =>
    if c.isWhitespace then
      if cur.isEmpty then pySplitAux cs []
      else String.mk cur.reverse :: pySplitAux cs []
    else pySplitAux cs (c :: cur)

/-- Python `str.split()` with no separator argument: the whitespace-separated
tokens, runs of whitespace collapsed, no empty tokens. -/
def pySplit (s : String) : List String :=
  pySplitAux s.toList []

/-- `WordList._word_contains`: `any(substring == word for word in
string.split())`. -/
def word_contains (s sub : String) : Bool :=
  (pySplit s).any (fun word => sub == word)

/-- In `words.py` a term's `order` is a Python `int` read from the csv (or
set by `mark_word`), never `None`, so the source guard `w.order is not None`
in `return_related_items` always evaluates to true. -/
def order_is_not_none (_ : Word) : Bool := true

/-- `WordList.return_related_items`: walk the item list, skip a term when
`w.group != label or w.order is not None`, and put the rest into
`(containing, not_containing)` by `_word_contains`. -/
def return_related_items : List Word → String → Label → List String × List String
  | [], _, _ => ([], [])
  | w :: ws, key, label =>
    let rest := return_related_items ws key label
    if (w.group != label) || order_is_not_none w then
      rest
    else if word_contains w.word key then
      (w.word :: rest.1, rest.2)
    else
      (rest.1, w.word :: rest.2)

/-- A csv row as `csv.DictReader` hands it to `WordList.from_csv`: the raw
field strings; `related` is `none` when the file has no such column
(`row.get('related', '')`). -/
structure CsvRow where
  keyword : String
  count : String
  group : String
  order : String
  related : Option String
  deriving DecidableEq

/-- Both ends of a character list stripped of whitespace, as Python's `int()`
strips a string before parsing it. -/
def pyStrip (cs : List Char) : List Char :=
  ((cs.dropWhile Char.isWhitespace).reverse.dropWhile Char.isWhitespace).reverse

/-- Value of the digits of a Python int literal after its first digit: a
single underscore may stand between two digits (PEP 515), a double, leading
or trailing underscore may not. -/
def pyDigitsAux (acc : Nat) : List Char → Option Nat
  | [] => some acc
  | ['_'] => none
  | '_' :: c :: cs =>
    if c.isDigit then pyDigitsAux (acc * 10 + (c.toNat - 48)) cs else none
  | c :: cs =>
    if c.isDigit then pyDigitsAux (acc * 10 + (c.toNat - 48)) cs else none

/-- The digit part of a Python int literal: a nonempty decimal digit run,
with underscores as allowed by `pyDigitsAux`. -/
def pyDigits? : List Char → Option Nat
  | [] => none
  | c :: cs => if c.isDigit then pyDigitsAux (c.toNat - 48) cs else none

/-- Python's `int(s)` on a decimal string: surrounding whitespace stripped,
an optional single sign, then digits with optional grouping underscores —
so `' 5'`, `'+5'` and `'1_0'` all parse, as they do in the source.  (The
model reads ASCII digits and whitespace; Python additionally accepts other
Unicode digits and spaces.) -/
def pyInt? (s : String) : Option Int :=
  match pyStrip s.toList with
  | '+' :: rest => (pyDigits? rest).map (fun n => (n : Int))
  | '-' :: rest => (pyDigits? rest).map (fun n => -(n : Int))
  | rest => (pyDigits? rest).map (fun n => (n : Int))

/-- The order-field handling of `from_csv`: `''` means `-1`, anything else
goes through `int()` (a bad literal raises `ValueError`). -/
def parseOrder (s : String) : Except String Int :=
  if s == "" then .ok (-1)
  else
    match pyInt? s with
    | some n => .ok n
    | none => .error ("invalid literal for int() with base 10")

/-- The group-field handling of `from_csv`: `Label.get_from_name`, falling
back to `Label.get_from_key` when the name lookup raises. -/
def parseGroup (s : String) : Except String Label :=
  match Label.get_from_name s with
  | .ok l => .ok l
  | .error _ => Label.get_from_key s

/-- One iteration of the `from_csv` row loop: build a `Word` from a row, in
the source's evaluation order (order first, then related, then group). -/
def rowToWord (row : CsvRow) : Except String Word := do
  let order ← parseOrder row.order
  let related := row.related.getD ""
  let group ← parseGroup row.group
  return { index := 0, word := row.keyword, count := row.count,
           group := group, order := order, related := related }

/-- `WordList.from_csv` restricted to the row loop: one `Word` per row, the
first failing row aborting the whole load (the csv-header bookkeeping of the
source touches no term and is omitted). -/
def from_csv : List CsvRow → Except String (List Word)
  | [] => .ok []
  | row :: rest => do
    let w ← rowToWord row
    let ws ← from_csv rest
    return w :: ws

/-- The Term Store classify operation as the spec words it, for comparison
with `mark_word`: it fails with `UnknownTermError` when no term with the
given string exists, and otherwise updates that term. -/
def classify_spec (items : List Word) (word : String) (marker : Label)
    (order : Int) (related : String) : Except String (List Word) :=
  if items.any (fun w => w.word == word) then
    .ok (mark_word items word marker order related)
  else
    .error ("UnknownTermError")

/-- Modelled from the spec: `TermList.get_from_label` lives in `terms.py`,
which is not among the staged repository files; the spec defines
`terms_with_label(label)` as all terms currently carrying the label, in the
store's original load order.  The work queue is embedded by term strings. -/
def get_from_label (items : List Word) (label : Label) : List String :=
  (items.filter (fun w => w.group == label)).map (fun w => w.word)

/-- `fawoc.classify`: mark the evaluated term with
`get_last_classified_order() + 1` and the current `sort_word_key`, then (when
no group is active) make the term the new anchor, partition the remaining
terms, reseed `related_items_count` for a fresh group and decrement it.
Returns the mutated store, the new queue, count and anchor. -/
def fawoc_classify (label : Label) (terms : List Word) (review : Label)
    (evaluated_term : Word) (sort_word_key : String)
    (related_items_count : Int) :
    Except String (List Word × List String × Int × String) := do
  let last ← get_last_classified_order terms
  let terms := mark_word terms evaluated_term.word label (last + 1) sort_word_key
  let sort_word_key :=
    if related_items_count ≤ 0 then evaluated_term.word else sort_word_key
  let parts := return_related_items terms sort_word_key review
  let related_items_count :=
    if related_items_count ≤ 0 then (parts.1.length : Int) + 1
    else related_items_count
  let to_classify := parts.1 ++ parts.2
  let related_items_count := related_items_count - 1
  return (terms, to_classify, related_items_count, sort_word_key)

/-- `fawoc.undo`: fetch the last classified term (no-op when it is `none`),
un-mark it back to the review label with order `-1`, then either re-insert it
at the queue front (its recorded anchor is the active one) or reactivate its
recorded group; an empty anchor forces the count to `0`.  The queue of the
source holds term objects and strings interchangeably; it is embedded by
term strings. -/
def fawoc_undo (terms : List Word) (to_classify : List String) (review : Label)
    (sort_word_key : String) (related_items_count : Int) :
    Except String (List Word × List String × Int × String) := do
  let last? ← get_last_classified_word terms
  match last? with
  | none => return (terms, to_classify, related_items_count, sort_word_key)
  | some last_word =>
    let related := last_word.related
    let terms := mark_word terms last_word.word review (-1) ""
    if related == sort_word_key then
      let related_items_count := related_items_count + 1
      let to_classify := last_word.word :: to_classify
      let related_items_count :=
        if sort_word_key == "" then 0 else related_items_count
      return (terms, to_classify, related_items_count, sort_word_key)
    else
      let sort_word_key := related
      let parts := return_related_items terms sort_word_key review
      let related_items_count := (parts.1.length : Int)
      let to_classify := parts.1 ++ parts.2
      let related_items_count :=
        if sort_word_key == "" then 0 else related_items_count
      return (terms, to_classify, related_items_count, sort_word_key)

/-- `fawoc.do_postpone`: mark the term `POSTPONED` with
`get_last_classified_order() + 1` and the current anchor, decrement the
count, and rebuild the queue (by partition while the group lives, otherwise
from the review label's bucket). -/
def do_postpone (terms : List Word) (word : Word) (review : Label)
    (sort_key : String) (related_count : Int) :
    Except String (List Word × Int × List String) := do
  let last ← get_last_classified_order terms
  let terms := mark_word terms word.word Label.POSTPONED (last + 1) sort_key
  let related_count := related_count - 1
  if related_count > 0 then
    let parts := return_related_items terms sort_key review
    return (terms, related_count, parts.1 ++ parts.2)
  else
    return (terms, related_count, get_from_label terms review)

/-- Pairwise distinctness of the non-negative orders in a store: the Term
Store invariant that no two classified terms share an order. -/
def distinctOrders (items : List Word) : Prop :=
  items.Pairwise (fun a b => 0 ≤ a.order → 0 ≤ b.order → a.order ≠ b.order)

/-! ## Helper lemmas -/

/-- The filter guard of `return_related_items` is always taken (its order
test never fails on an `Int`-valued order), so the partition is always
empty. -/
theorem return_related_items_eq_nil (items : List Word) (key : String)
    (label : Label) : return_related_items items key label = ([], []) := by
  induction items with
  | nil => rfl
  | cons w ws ih => simp [return_related_items, order_is_not_none, ih]

theorem le_maxOrderAux_self (ws : List Word) (m : Int) : m ≤ maxOrderAux m ws := by
  induction ws generalizing m with
  | nil => exact le_refl m
  | cons w ws ih => exact le_trans (le_max_left m w.order) (ih (max m w.order))

theorem mem_le_maxOrderAux (ws : List Word) :
    ∀ (m : Int) (u : Word), u ∈ ws → u.order ≤ maxOrderAux m ws := by
  induction ws with
  | nil => intro m u hu; cases hu
  | cons w ws ih =>
    intro m u hu
    rcases List.mem_cons.mp hu with h | h
    · subst h
      exact le_trans (le_max_right m u.order)
        (le_maxOrderAux_self ws (max m u.order))
    · exact ih (max m w.order) u h

/-- Every order in the store is bounded by the value
`get_last_classified_order` returns. -/
theorem order_le_get_last_classified_order (items : List Word) (L : Int)
    (h : get_last_classified_order items = .ok L) (u : Word) (hu : u ∈ items) :
    u.order ≤ L := by
  cases items with
  | nil => cases h
  | cons w ws =>
    have hL : (if maxOrderAux w.order ws < 0 then (-1 : Int)
        else maxOrderAux w.order ws) = L := by
      simpa [get_last_classified_order] using h
    have hum : u.order ≤ maxOrderAux w.order ws := by
      rcases List.mem_cons.mp hu with h' | h'
      · subst h'
        exact le_maxOrderAux_self ws u.order
      · exact mem_le_maxOrderAux ws w.order u h'
    by_cases hneg : maxOrderAux w.order ws < 0
    · rw [if_pos hneg] at hL
      omega
    · rw [if_neg hneg] at hL
      omega

/-- A member of the marked store is a member of the original store, or it is
the freshly marked term and carries the assigned order. -/
theorem mem_mark_word (items : List Word) (word : String) (marker : Label)
    (order : Int) (related : String) (b : Word)
    (hb : b ∈ mark_word items word marker order related) :
    b ∈ items ∨ b.order = order := by
  induction items with
  | nil => cases hb
  | cons w ws ih =>
    by_cases hw : (w.word == word) = true
    · simp [mark_word, hw] at hb
      rcases hb with h | h
      · right
        rw [h]
      · exact Or.inl (List.mem_cons_of_mem _ h)
    · simp [mark_word, hw] at hb
      rcases hb with h | h
      · exact Or.inl (by simp [h])
      · rcases ih h with h' | h'
        · exact Or.inl (List.mem_cons_of_mem _ h')
        · exact Or.inr h'

/-- Marking a term with an order strictly above every order in the store
preserves distinctness of the non-negative orders. -/
theorem distinctOrders_mark_word (items : List Word) (word : String)
    (marker : Label) (order : Int) (related : String)
    (hgt : ∀ u ∈ items, u.order < order) (hdist : distinctOrders items) :
    distinctOrders (mark_word items word marker order related) := by
  induction items with
  | nil => exact List.Pairwise.nil
  | cons w ws ih =>
    rcases List.pairwise_cons.mp hdist with ⟨h₁, h₂⟩
    by_cases hw : (w.word == word) = true
    · rw [mark_word, if_pos hw]
      refine List.pairwise_cons.mpr ⟨?_, h₂⟩
      intro b hb
      dsimp only
      intro _ _
      have : b.order < order := hgt b (List.mem_cons_of_mem _ hb)
      omega
    · rw [mark_word, if_neg hw]
      refine List.pairwise_cons.mpr ⟨?_, ?_⟩
      · intro b hb h0w h0b
        rcases mem_mark_word ws word marker order related b hb with h | h
        · exact h₁ b h h0w h0b
        · have : w.order < order := hgt w (List.mem_cons_self w ws)
          omega
      · exact ih (fun u hu => hgt u (List.mem_cons_of_mem _ hu)) h₂

/-- `fawoc_classify` computed out: the store mutation is `mark_word` at order
`last + 1` with the incoming anchor; the partition over the broken filter is
empty, so the queue is empty and the count and anchor depend only on whether
a group was active. -/
theorem fawoc_classify_eq (label : Label) (terms : List Word) (review : Label)
    (evaluated_term : Word) (sort_word_key : String) (related_items_count : Int)
    (L : Int) (h : get_last_classified_order terms = .ok L) :
    fawoc_classify label terms review evaluated_term sort_word_key related_items_count =
      .ok (mark_word terms evaluated_term.word label (L + 1) sort_word_key, [],
        if related_items_count ≤ 0 then 0 else related_items_count - 1,
        if related_items_count ≤ 0 then evaluated_term.word else sort_word_key) := by
  simp [fawoc_classify, h, return_related_items_eq_nil, Except.bind, Bind.bind]
  split <;> rfl

/-- `do_postpone` computed out, in the same way. -/
theorem do_postpone_eq (terms : List Word) (word : Word) (review : Label)
    (sort_key : String) (related_count : Int) (L : Int)
    (h : get_last_classified_order terms = .ok L) :
    do_postpone terms word review sort_key related_count =
      .ok (mark_word terms word.word Label.POSTPONED (L + 1) sort_key,
        related_count - 1,
        if related_count - 1 > 0 then []
        else get_from_label (mark_word terms word.word Label.POSTPONED (L + 1) sort_key) review) := by
  simp [do_postpone, h, return_related_items_eq_nil, Except.bind, Bind.bind]
  split <;> rfl

/-- `exceptOk e` is true exactly on a normal (non-raising) result. -/
def exceptOk {α : Type} : Except String α → Bool
  | .ok _ => true
  | .error _ => false

theorem exceptOk_map {α β : Type} (f : α → β) (e : Except String α) :
    exceptOk (Except.map f e) = exceptOk e := by
  cases e <;> rfl

/-- `rowToWord` with a well-formed order field is the group lookup mapped
into a `Word`. -/
theorem rowToWord_eq (row : CsvRow) (n : Int) (hpo : parseOrder row.order = .ok n) :
    rowToWord row = Except.map
      (fun g => { index := 0, word := row.keyword, count := row.count,
                  group := g, order := n, related := row.related.getD "" })
      (parseGroup row.group) := by
  simp [rowToWord, hpo, Except.bind, Bind.bind]
  cases parseGroup row.group <;> rfl

/-! ## Concrete stores for the claim instances -/

def wAlpha : Word :=
  { index := 0, word := "alpha", count := "3", group := Label.NONE,
    order := -1, related := "" }

def wBeta : Word :=
  { index := 0, word := "beta", count := "2", group := Label.NONE,
    order := -1, related := "" }

def wKeyAlpha : Word :=
  { index := 0, word := "alpha", count := "3", group := Label.KEYWORD,
    order := -1, related := "" }

def wPipeline : Word :=
  { index := 0, word := "data science pipeline", count := "1",
    group := Label.NONE, order := -1, related := "" }

def rowDupA : CsvRow :=
  { keyword := "alpha", count := "1", group := "keyword", order := "",
    related := none }

def rowDupB : CsvRow :=
  { keyword := "alpha", count := "2", group := "noise", order := "",
    related := none }

/-! ## The claims -/

/-- C1: on a non-empty store in which no term is classified yet (every order
is -1), `get_last_classified_word` does not return none: the clamped maximum
order is -1 and the first store term matches it, so the first (unclassified)
term of the store is returned.  The claimed none result does not occur. -/
theorem C1_unclassified_store_yields_first_term :
    get_last_classified_word [wAlpha, wBeta] = .ok (some wAlpha) ∧
    wAlpha.order = -1 ∧ wBeta.order = -1 ∧
    some wAlpha ≠ (none : Option Word) :=
  ⟨rfl, rfl, rfl, by decide⟩

/-- C2: undo on a store in which no term has ever been classified (every
order is -1, here one term carrying a label from an earlier pass) is not a
no-op: `get_last_classified_word` hands back the first store term instead of
none, so undo re-marks it with the review label and pushes it onto the work
queue front. -/
theorem C2_undo_mutates_when_nothing_classified :
    fawoc_undo [wKeyAlpha] [] Label.NONE "" 0 =
      .ok ([{ wKeyAlpha with group := Label.NONE }], ["alpha"], 0, "") ∧
    ({ wKeyAlpha with group := Label.NONE } : Word) ≠ wKeyAlpha ∧
    (["alpha"] : List String) ≠ [] :=
  ⟨rfl, by decide, by decide⟩

/-- C3 counterexample: classifying a term string absent from the store does
not fail: where the spec-side operation raises `UnknownTermError`,
`mark_word` returns normally with the store unchanged (silent no-op). -/
theorem C3_counterexample :
    classify_spec [wAlpha] "gamma" Label.KEYWORD 0 "" =
      .error ("UnknownTermError") ∧
    mark_word [wAlpha] "gamma" Label.KEYWORD 0 "" = [wAlpha] :=
  ⟨rfl, rfl⟩

/-- C3 amended: `mark_word` on a term string absent from the store raises
nothing and is a silent no-op: it returns the store with every term
unchanged. -/
theorem C3_amended_absent_is_silent_noop (items : List Word) (word : String)
    (marker : Label) (order : Int) (related : String)
    (h : ∀ w ∈ items, w.word ≠ word) :
    mark_word items word marker order related = items := by
  induction items with
  | nil => rfl
  | cons w ws ih =>
    have hw : (w.word == word) = false :=
      beq_eq_false_iff_ne.mpr (h w (List.mem_cons_self w ws))
    rw [mark_word, if_neg (by simp [hw]),
      ih (fun u hu => h u (List.mem_cons_of_mem _ hu))]

theorem C3_amended_witness :
    mark_word [wBeta] "gamma" Label.KEYWORD 0 "" = [wBeta] :=
  C3_amended_absent_is_silent_noop [wBeta] "gamma" Label.KEYWORD 0 ""
    (by decide)

/-- C4: `return_related_items` considers no term at all: a term that carries
the active label, is unclassified (order -1) and contains the key as a whole
token still lands in neither output list, because the source filter
`w.group != label or w.order is not None` is satisfied by every term. -/
theorem C4_partition_considers_no_terms :
    return_related_items [wPipeline] "pipeline" Label.NONE = ([], []) ∧
    wPipeline.group = Label.NONE ∧ wPipeline.order = -1 ∧
    word_contains wPipeline.word "pipeline" = true :=
  ⟨rfl, rfl, rfl, by decide⟩

/-- C5 counterexample: a classify with no active group
(`related_items_count = 0`, empty anchor) calls the Term Store mutation
BEFORE updating `sort_word_key`, so the store records the term's related
field as the old empty anchor, not as the term's own string; the new anchor
"alpha" only appears in the returned session state. -/
theorem C5_counterexample :
    fawoc_classify Label.KEYWORD [wAlpha] Label.NONE wAlpha "" 0 =
      .ok ([{ wAlpha with group := Label.KEYWORD, order := 0, related := "" }],
        [], 0, "alpha") ∧
    ({ wAlpha with group := Label.KEYWORD, order := 0, related := "" } : Word).related
      ≠ wAlpha.word :=
  ⟨rfl, by decide⟩

/-- C5 amended: for a classify with no active group the store mutation comes
first, recording the previous anchor `sort_word_key` in the term's related
field; only afterwards does the just-classified term's string become the new
anchor, which is returned as the session's `sort_word_key`. -/
theorem C5_amended_anchor_assigned_after_store_write (label : Label)
    (terms : List Word) (review : Label) (evaluated_term : Word)
    (sort_word_key : String) (related_items_count : Int) (L : Int)
    (h : get_last_classified_order terms = .ok L)
    (hcount : related_items_count ≤ 0) :
    fawoc_classify label terms review evaluated_term sort_word_key
        related_items_count =
      .ok (mark_word terms evaluated_term.word label (L + 1) sort_word_key,
        [], 0, evaluated_term.word) := by
  rw [fawoc_classify_eq label terms review evaluated_term sort_word_key
    related_items_count L h, if_pos hcount, if_pos hcount]

theorem C5_amended_witness :
    fawoc_classify Label.KEYWORD [wBeta] Label.NONE wBeta "" 0 =
      .ok (mark_word [wBeta] wBeta.word Label.KEYWORD (-1 + 1) "", [], 0,
        wBeta.word) :=
  C5_amended_anchor_assigned_after_store_write Label.KEYWORD [wBeta]
    Label.NONE wBeta "" 0 (-1) rfl (by decide)

/-- C6: a successful classify (and likewise a postpone) marks the evaluated
term with order `last + 1`, strictly greater than every order currently held
in the store, and therefore preserves pairwise distinctness of the
non-negative orders. -/
theorem C6_assigned_order_strictly_increases (label : Label)
    (terms : List Word) (review : Label) (evaluated_term : Word)
    (sort_word_key : String) (related_items_count : Int) (L : Int)
    (h : get_last_classified_order terms = .ok L)
    (hdist : distinctOrders terms) :
    (∀ u ∈ terms, u.order < L + 1) ∧
    (∃ q c k, fawoc_classify label terms review evaluated_term sort_word_key
        related_items_count =
      .ok (mark_word terms evaluated_term.word label (L + 1) sort_word_key,
        q, c, k)) ∧
    distinctOrders
      (mark_word terms evaluated_term.word label (L + 1) sort_word_key) ∧
    (∃ c q, do_postpone terms evaluated_term review sort_word_key
        related_items_count =
      .ok (mark_word terms evaluated_term.word Label.POSTPONED (L + 1)
        sort_word_key, c, q)) ∧
    distinctOrders (mark_word terms evaluated_term.word Label.POSTPONED
      (L + 1) sort_word_key) := by
  have hgt : ∀ u ∈ terms, u.order < L + 1 := by
    intro u hu
    have := order_le_get_last_classified_order terms L h u hu
    omega
  refine ⟨hgt,
    ⟨_, _, _, fawoc_classify_eq label terms review evaluated_term
      sort_word_key related_items_count L h⟩,
    distinctOrders_mark_word terms evaluated_term.word label (L + 1)
      sort_word_key hgt hdist,
    ⟨_, _, do_postpone_eq terms evaluated_term review sort_word_key
      related_items_count L h⟩,
    distinctOrders_mark_word terms evaluated_term.word Label.POSTPONED (L + 1)
      sort_word_key hgt hdist⟩

theorem C6_witness :
    (∀ u ∈ [wAlpha], u.order < -1 + 1) ∧
    (∃ q c k, fawoc_classify Label.KEYWORD [wAlpha] Label.NONE wAlpha "" 0 =
      .ok (mark_word [wAlpha] wAlpha.word Label.KEYWORD (-1 + 1) "", q, c, k)) ∧
    distinctOrders (mark_word [wAlpha] wAlpha.word Label.KEYWORD (-1 + 1) "") ∧
    (∃ c q, do_postpone [wAlpha] wAlpha Label.NONE "" 0 =
      .ok (mark_word [wAlpha] wAlpha.word Label.POSTPONED (-1 + 1) "", c, q)) ∧
    distinctOrders (mark_word [wAlpha] wAlpha.word Label.POSTPONED (-1 + 1) "") :=
  C6_assigned_order_strictly_increases Label.KEYWORD [wAlpha] Label.NONE
    wAlpha "" 0 (-1) rfl (by simp [distinctOrders])

theorem from_csv_cons_ok (r : CsvRow) (rs : List CsvRow) (w : Word)
    (hw : rowToWord r = .ok w) :
    from_csv (r :: rs) = Except.map (fun ws => w :: ws) (from_csv rs) := by
  simp [from_csv, hw, Except.bind, Bind.bind]
  cases from_csv rs <;> rfl

theorem from_csv_cons_err (r : CsvRow) (rs : List CsvRow) (e : String)
    (he : rowToWord r = .error e) :
    from_csv (r :: rs) = .error e := by
  simp [from_csv, he, Except.bind, Bind.bind]

/-- Sanity anchor for the `int()` model: the Python-accepted forms `' 5'`,
`'+5'` and `'1_0'` parse, and the Python-rejected forms fail. -/
theorem parseOrder_py_examples :
    parseOrder "" = .ok (-1) ∧
    parseOrder " 5" = .ok 5 ∧
    parseOrder "+5" = .ok 5 ∧
    parseOrder "1_0" = .ok 10 ∧
    parseOrder "-42" = .ok (-42) ∧
    parseOrder " 10 " = .ok 10 ∧
    parseOrder "1__0" = .error ("invalid literal for int() with base 10") ∧
    parseOrder "_1" = .error ("invalid literal for int() with base 10") ∧
    parseOrder "1_" = .error ("invalid literal for int() with base 10") ∧
    parseOrder "x" = .error ("invalid literal for int() with base 10") ∧
    parseOrder "+" = .error ("invalid literal for int() with base 10") ∧
    parseOrder "1 0" = .error ("invalid literal for int() with base 10") := by
  refine ⟨rfl, rfl, rfl, rfl, rfl, rfl, rfl, rfl, rfl, rfl, rfl, rfl⟩

/-- C7 counterexample: two rows carrying the same term string load without
any error — `from_csv` performs no duplicate check and builds one term per
row, so the claimed failure on duplicated strings does not occur. -/
theorem C7_counterexample :
    rowDupA.keyword = rowDupB.keyword ∧
    from_csv [rowDupA, rowDupB] =
      .ok [{ index := 0, word := "alpha", count := "1",
             group := Label.KEYWORD, order := -1, related := "" },
           { index := 0, word := "alpha", count := "2",
             group := Label.NOISE, order := -1, related := "" }] :=
  ⟨rfl, rfl⟩

/-- C7 amended: over rows whose order fields are well-formed for Python's
`int()` (empty, or an optionally signed decimal literal — which rows written
by `to_csv` always are), `from_csv` fails exactly when a row's label field
is recognized by neither name nor key; duplicate term strings are not
detected, and a successful load builds exactly one term per row, duplicates
included. -/
theorem C7_amended_load_fails_only_on_bad_label (rows : List CsvRow)
    (horder : ∀ r ∈ rows, exceptOk (parseOrder r.order) = true) :
    (exceptOk (from_csv rows) =
      rows.all (fun r => exceptOk (parseGroup r.group))) ∧
    (∀ ws, from_csv rows = .ok ws → ws.length = rows.length) := by
  induction rows with
  | nil =>
    refine ⟨rfl, ?_⟩
    intro ws h
    cases h
    rfl
  | cons r rs ih =>
    obtain ⟨hA, hB⟩ := ih (fun u hu => horder u (List.mem_cons_of_mem _ hu))
    have hr := horder r (List.mem_cons_self r rs)
    obtain ⟨n, hn⟩ : ∃ n, parseOrder r.order = .ok n := by
      cases hpo : parseOrder r.order with
      | error e => rw [hpo] at hr; cases hr
      | ok v => exact ⟨v, rfl⟩
    have hrow := rowToWord_eq r n hn
    cases hg : parseGroup r.group with
    | error e =>
      have hre : rowToWord r = .error e := by rw [hrow, hg]; rfl
      refine ⟨?_, ?_⟩
      · rw [from_csv_cons_err r rs e hre]
        simp [exceptOk, List.all_cons, hg]
      · intro ws hws
        rw [from_csv_cons_err r rs e hre] at hws
        cases hws
    | ok g =>
      have hok : rowToWord r = .ok
          { index := 0, word := r.keyword, count := r.count, group := g,
            order := n, related := r.related.getD "" } := by
        rw [hrow, hg]; rfl
      refine ⟨?_, ?_⟩
      · rw [from_csv_cons_ok r rs _ hok, exceptOk_map, hA]
        simp [List.all_cons, hg, exceptOk]
      · intro ws hws
        rw [from_csv_cons_ok r rs _ hok] at hws
        cases hrest : from_csv rs with
        | error e2 =>
          rw [hrest] at hws
          cases hws
        | ok ws2 =>
          rw [hrest] at hws
          cases hws
          simp [List.length_cons, hB ws2 hrest]

theorem C7_amended_witness :
    (exceptOk (from_csv [rowDupA]) =
      [rowDupA].all (fun r => exceptOk (parseGroup r.group))) ∧
    (∀ ws, from_csv [rowDupA] = .ok ws → ws.length = [rowDupA].length) :=
  C7_amended_load_fails_only_on_bad_label [rowDupA] (by decide)

/-- C8: `_word_contains` holds exactly when the key equals one of the term's
whitespace-separated component tokens; in particular "data science pipeline"
contains the token "pipeline" but not the character substring "pipe". -/
theorem C8_word_contains_whole_token :
    (∀ s key : String, word_contains s key = true ↔ key ∈ pySplit s) ∧
    word_contains "data science pipeline" "pipeline" = true ∧
    word_contains "data science pipeline" "pipe" = false := by
  refine ⟨?_, by decide, by decide⟩
  intro s key
  constructor
  · intro h
    rcases List.any_eq_true.mp h with ⟨x, hx, he⟩
    rw [beq_iff_eq] at he
    rw [he]
    exact hx
  · intro h
    exact List.any_eq_true.mpr ⟨key, h, beq_self_eq_true key⟩

/-- C9: marking a term string present in the store rewrites exactly the
first term carrying it — its group, order and related fields — while its
string and count survive and every other term, and the store's shape, are
untouched. -/
theorem C9_mark_word_frame (pre post : List Word) (a : Word) (word : String)
    (marker : Label) (order : Int) (related : String)
    (hpre : ∀ b ∈ pre, b.word ≠ word) (ha : a.word = word) :
    mark_word (pre ++ a :: post) word marker order related =
      pre ++ { a with group := marker, order := order, related := related }
        :: post := by
  induction pre with
  | nil => simp [mark_word, ha]
  | cons b bs ih =>
    have hb : (b.word == word) = false :=
      beq_eq_false_iff_ne.mpr (hpre b (List.mem_cons_self b bs))
    simp only [List.cons_append, mark_word, hb, Bool.false_eq_true, if_false,
      List.append_eq]
    rw [ih (fun u hu => hpre u (List.mem_cons_of_mem _ hu))]

theorem C9_mark_word_frame_witness :
    mark_word ([wAlpha] ++ wBeta :: []) "beta" Label.KEYWORD 5 "alpha" =
      [wAlpha] ++
        ({ wBeta with
            group := Label.KEYWORD, order := 5, related := "alpha" } :: []) :=
  C9_mark_word_frame [wAlpha] [] wBeta "beta" Label.KEYWORD 5 "alpha"
    (by decide) rfl

/-- C10: on an empty item list both last-classified queries raise (Python's
`max` over an empty sequence), and on any non-empty list both return
normally: non-emptiness is the precondition for totality. -/
theorem C10_empty_store_is_a_precondition (items : List Word)
    (hne : items ≠ []) :
    get_last_classified_order ([] : List Word) =
      .error ("max() arg is an empty sequence") ∧
    get_last_classified_word ([] : List Word) =
      .error ("max() arg is an empty sequence") ∧
    (∃ v, get_last_classified_order items = .ok v) ∧
    (∃ r, get_last_classified_word items = .ok r) := by
  cases items with
  | nil => exact absurd rfl hne
  | cons w ws => exact ⟨rfl, rfl, ⟨_, rfl⟩, ⟨_, rfl⟩⟩

theorem C10_witness :
    get_last_classified_order ([] : List Word) =
      .error ("max() arg is an empty sequence") ∧
    get_last_classified_word ([] : List Word) =
      .error ("max() arg is an empty sequence") ∧
    (∃ v, get_last_classified_order [wAlpha] = .ok v) ∧
    (∃ r, get_last_classified_word [wAlpha] = .ok r) :=
  C10_empty_store_is_a_precondition [wAlpha] (by decide)
